import Mathlib

set_option linter.unusedSectionVars false

/-!
# Verification of the explorer-grid interaction core

Shallow embedding of the selection engine (`useSelection`), focus engine
(`useFocus`), keyboard router (`useKeyboard`), typeahead matcher
(`useTypeahead`), marquee hit tester (`useMarquee`) and the orchestrator's
item-list reconciliation pass (`useExplorerGrid`), together with proofs of
the specified properties.

A JavaScript `Set` is modelled as a duplicate-free list in insertion order:
`add` appends when absent, `delete` removes, `new Set(xs)` folds `add` over
the list.  Indices follow the JavaScript code and are modelled as `Int`
(they can be the sentinel `-1`); `items[i]` is modelled by an `Option`
lookup that is `none` out of range.
-/

namespace ExplorerGrid

variable {α : Type} [DecidableEq α] {T : Type}

/-- JavaScript `Set.prototype.add`: append the element when absent. -/
def setAdd (s : List α) (x : α) : List α :=
  if x ∈ s then s else s ++ [x]

/-- JavaScript `new Set(xs)`: insert the elements in order, keeping the
first occurrence of each. -/
def setOf (xs : List α) : List α :=
  xs.foldl setAdd []

@[simp] theorem mem_setAdd {s : List α} {x y : α} :
    y ∈ setAdd s x ↔ y ∈ s ∨ y = x := by
  unfold setAdd
  split
  · constructor
    · exact fun h => Or.inl h
    · rintro (h | rfl) <;> [exact h; assumption]
  · simp

theorem mem_foldl_setAdd {xs : List α} {s : List α} {y : α} :
    y ∈ xs.foldl setAdd s ↔ y ∈ s ∨ y ∈ xs := by
  induction xs generalizing s with
  | nil => simp
  | cons x xs ih =>
    simp only [List.foldl_cons, ih, mem_setAdd, List.mem_cons]
    tauto

@[simp] theorem mem_setOf {xs : List α} {y : α} :
    y ∈ setOf xs ↔ y ∈ xs := by
  unfold setOf
  rw [mem_foldl_setAdd]
  simp

/-- JavaScript `items[i]` for an `Int` index: `none` when out of range. -/
def getAtInt (items : List T) (i : Int) : Option T :=
  if i < 0 then none else items.get? i.toNat

/-- `findIndex`-style lookup: the index of the first match, or `-1`. -/
def findIndexOf (items : List T) (p : T → Bool) : Int :=
  match items.findIdx? p with
  | some i => (i : Int)
  | none => -1

/-! ## SelectionEngine (`useSelection`) -/

/-- Selection mode, from the `SelectionMode` type. -/
inductive SelectionMode where
  | none
  | single
  | multiple
  deriving DecidableEq, Repr

/-- State owned by `useSelection`: the selected-id set (insertion order)
and the range anchor. -/
structure SelState (α : Type) where
  selectedIds : List α
  anchorId : Option α
  deriving DecidableEq, Repr

/-- Result of one mutation call: the new state and how many times
`onSelectionChange` was invoked during the call. -/
structure SelResult (α : Type) where
  state : SelState α
  notifies : Nat
  deriving DecidableEq, Repr

/-- `select(id)` from `useSelection`. -/
def select (mode : SelectionMode) (st : SelState α) (id : α) : SelResult α :=
  if mode = SelectionMode.none then ⟨st, 0⟩
  else if id ∈ st.selectedIds then ⟨st, 0⟩
  else if mode = SelectionMode.single then ⟨{ st with selectedIds := [id] }, 1⟩
  else ⟨{ st with selectedIds := setAdd st.selectedIds id }, 1⟩

/-- `deselect(id)` from `useSelection`: no mode gate in the source. -/
def deselect (st : SelState α) (id : α) : SelResult α :=
  if id ∈ st.selectedIds then ⟨{ st with selectedIds := st.selectedIds.erase id }, 1⟩
  else ⟨st, 0⟩

/-- `toggle(id)` from `useSelection`. -/
def toggle (mode : SelectionMode) (st : SelState α) (id : α) : SelResult α :=
  if mode = SelectionMode.none then ⟨st, 0⟩
  else if id ∈ st.selectedIds then deselect st id
  else if mode = SelectionMode.single then ⟨{ st with selectedIds := [id] }, 1⟩
  else select mode st id

/-- `selectOnly(id)` from `useSelection`: replaces the set unconditionally
(outside mode `none`) and always notifies. -/
def selectOnly (mode : SelectionMode) (st : SelState α) (id : α) : SelResult α :=
  if mode = SelectionMode.none then ⟨st, 0⟩
  else ⟨{ st with selectedIds := [id] }, 1⟩

/-- `selectMultiple(ids)` from `useSelection`: under `single` with a
non-empty input, collapse to the last id; otherwise union into the set.
Notifies once in either branch. -/
def selectMultiple (mode : SelectionMode) (st : SelState α) (ids : List α) : SelResult α :=
  if mode = SelectionMode.none then ⟨st, 0⟩
  else
    match mode, ids.getLast? with
    | SelectionMode.single, some lastId => ⟨{ st with selectedIds := [lastId] }, 1⟩
    | _, _ => ⟨{ st with selectedIds := ids.foldl setAdd st.selectedIds }, 1⟩

/-- `selectRange(ids)` from `useSelection`: under `single` with a non-empty
input, collapse to the last id; otherwise replace the set with `new Set(ids)`. -/
def selectRange (mode : SelectionMode) (st : SelState α) (ids : List α) : SelResult α :=
  if mode = SelectionMode.none then ⟨st, 0⟩
  else
    match mode, ids.getLast? with
    | SelectionMode.single, some lastId => ⟨{ st with selectedIds := [lastId] }, 1⟩
    | _, _ => ⟨{ st with selectedIds := setOf ids }, 1⟩

/-- `selectAll(ids)` from `useSelection`. -/
def selectAll (mode : SelectionMode) (st : SelState α) (ids : List α) : SelResult α :=
  if mode = SelectionMode.none ∨ mode = SelectionMode.single then ⟨st, 0⟩
  else ⟨{ st with selectedIds := setOf ids }, 1⟩

/-- `clear()` from `useSelection`: no mode gate in the source. -/
def clear (st : SelState α) : SelResult α :=
  if st.selectedIds = [] then ⟨st, 0⟩
  else ⟨{ st with selectedIds := [] }, 1⟩

/-- `setAnchor(id)` from `useSelection`: never notifies. -/
def setAnchor (st : SelState α) (id : Option α) : SelResult α :=
  ⟨{ st with anchorId := id }, 0⟩

/-- One mutation call on the selection engine. -/
inductive SelCall (α : Type) where
  | select (id : α)
  | deselect (id : α)
  | toggle (id : α)
  | selectOnly (id : α)
  | selectMultiple (ids : List α)
  | selectRange (ids : List α)
  | selectAll (ids : List α)
  | clear
  | setAnchor (id : Option α)

/-- Dispatch one mutation call. -/
def applyCall (mode : SelectionMode) (st : SelState α) : SelCall α → SelResult α
  | SelCall.select id => select mode st id
  | SelCall.deselect id => deselect st id
  | SelCall.toggle id => toggle mode st id
  | SelCall.selectOnly id => selectOnly mode st id
  | SelCall.selectMultiple ids => selectMultiple mode st ids
  | SelCall.selectRange ids => selectRange mode st ids
  | SelCall.selectAll ids => selectAll mode st ids
  | SelCall.clear => clear st
  | SelCall.setAnchor id => setAnchor st id

/-- The empty initial selection state. -/
def initialSelState : SelState α := ⟨[], Option.none⟩

/-- Run a sequence of mutation calls from a state. -/
def runCalls (mode : SelectionMode) (st : SelState α) : List (SelCall α) → SelState α
  | [] => st
  | c :: cs => runCalls mode (applyCall mode st c).state cs

/-! ## Selection-mode invariants -/

theorem applyCall_none_empty (st : SelState α) (h : st.selectedIds = [])
    (c : SelCall α) :
    ((applyCall SelectionMode.none st c).state).selectedIds = [] := by
  cases c <;>
    simp [applyCall, select, deselect, toggle, selectOnly, selectMultiple,
      selectRange, selectAll, clear, setAnchor, h]

theorem applyCall_single_le_one (st : SelState α) (h : st.selectedIds.length ≤ 1)
    (c : SelCall α) :
    ((applyCall SelectionMode.single st c).state).selectedIds.length ≤ 1 := by
  have herase : ∀ id : α, (st.selectedIds.erase id).length ≤ 1 :=
    fun id => le_trans (List.Sublist.length_le (List.erase_sublist id st.selectedIds)) h
  cases c with
  | select id =>
    by_cases hmem : id ∈ st.selectedIds <;>
      simp [applyCall, select, hmem, h]
  | deselect id =>
    by_cases hmem : id ∈ st.selectedIds <;>
      simp [applyCall, deselect, hmem, h, herase id]
  | toggle id =>
    by_cases hmem : id ∈ st.selectedIds <;>
      simp [applyCall, toggle, deselect, select, hmem, h, herase id]
  | selectOnly id =>
    simp [applyCall, selectOnly]
  | selectMultiple ids =>
    simp only [applyCall, selectMultiple]
    split
    · exact h
    · cases hl : ids.getLast? with
      | none =>
        have hnil : ids = [] := List.getLast?_eq_none_iff.mp hl
        subst hnil
        simp [h]
      | some lastId => simp [hl]
  | selectRange ids =>
    simp only [applyCall, selectRange]
    split
    · exact h
    · cases hl : ids.getLast? with
      | none =>
        have hnil : ids = [] := List.getLast?_eq_none_iff.mp hl
        subst hnil
        simp [setOf]
      | some lastId => simp [hl]
  | selectAll ids =>
    simp only [applyCall, selectAll]
    split
    · exact h
    · simp_all
  | clear =>
    simp only [applyCall, clear]
    split <;> simp [h]
  | setAnchor id =>
    simpa [applyCall, setAnchor] using h

theorem runCalls_none_empty (cs : List (SelCall α)) (st : SelState α)
    (h : st.selectedIds = []) :
    (runCalls SelectionMode.none st cs).selectedIds = [] := by
  induction cs generalizing st with
  | nil => exact h
  | cons c cs ih => exact ih _ (applyCall_none_empty st h c)

theorem runCalls_single_le_one (cs : List (SelCall α)) (st : SelState α)
    (h : st.selectedIds.length ≤ 1) :
    (runCalls SelectionMode.single st cs).selectedIds.length ≤ 1 := by
  induction cs generalizing st with
  | nil => exact h
  | cons c cs ih => exact ih _ (applyCall_single_le_one st h c)

/-- Claim C1: for every sequence of SelectionEngine mutation calls starting
from the empty selection, under mode `none` the selected-id set is empty
after every call, and under mode `single` it has cardinality at most 1
after every call. -/
theorem C1_selection_mode_invariant (calls : List (SelCall α)) :
    (runCalls SelectionMode.none (initialSelState (α := α)) calls).selectedIds = [] ∧
    (runCalls SelectionMode.single (initialSelState (α := α)) calls).selectedIds.length ≤ 1 :=
  ⟨runCalls_none_empty calls _ rfl,
   runCalls_single_le_one calls _ (by simp [initialSelState])⟩

/-! ## FocusEngine (`useFocus`) -/

/-- State owned by `useFocus`. -/
structure FocusState (α : Type) where
  focusedId : Option α
  deriving DecidableEq, Repr

/-- Result of one focus mutation: new state plus `onFocusChange` count. -/
structure FocusResult (α : Type) where
  state : FocusState α
  notifies : Nat
  deriving DecidableEq, Repr

/-- `focusedIndex` from `useFocus`: `-1` when unset or not found. -/
def focusedIndex (items : List T) (getId : T → α) (st : FocusState α) : Int :=
  match st.focusedId with
  | Option.none => -1
  | Option.some id => findIndexOf items (fun it => decide (getId it = id))

/-- `setFocusById` from `useFocus`: sets focus only when the id exists in
the current item list; silent no-op otherwise. -/
def setFocusById (items : List T) (getId : T → α) (st : FocusState α) (id : α) :
    FocusResult α :=
  if items.any (fun it => decide (getId it = id)) then ⟨⟨Option.some id⟩, 1⟩
  else ⟨st, 0⟩

/-- `setFocusByIndex` from `useFocus`: in-range check `0 ≤ index < length`,
silent no-op otherwise. -/
def setFocusByIndex (items : List T) (getId : T → α) (st : FocusState α) (index : Int) :
    FocusResult α :=
  match getAtInt items index with
  | Option.some it => ⟨⟨Option.some (getId it)⟩, 1⟩
  | Option.none => ⟨st, 0⟩

/-- `clearFocus` from `useFocus`: always notifies. -/
def clearFocus (_st : FocusState α) : FocusResult α :=
  ⟨⟨Option.none⟩, 1⟩

/-- Navigation directions; `rowEnd` stands for the source's `'end'` and
`homeGlobal`/`endGlobal` for `'home-global'`/`'end-global'`. -/
inductive NavDirection where
  | left
  | right
  | up
  | down
  | home
  | rowEnd
  | homeGlobal
  | endGlobal
  | pageUp
  | pageDown
  deriving DecidableEq, Repr

/-- `calculateTargetIndex` from `useFocus`, on `Int` indices exactly as the
JavaScript arithmetic (all operands at the call sites are non-negative, so
`%` agrees with the JavaScript remainder). -/
def calculateTargetIndex (currentIndex : Int) (direction : NavDirection)
    (cols totalItems visibleRows : Int) : Int :=
  if totalItems = 0 then -1
  else if currentIndex < 0 then 0
  else
    match direction with
    | NavDirection.left => max 0 (currentIndex - 1)
    | NavDirection.right => min (totalItems - 1) (currentIndex + 1)
    | NavDirection.up => max 0 (currentIndex - cols)
    | NavDirection.down => min (totalItems - 1) (currentIndex + cols)
    | NavDirection.home => currentIndex - currentIndex % cols
    | NavDirection.rowEnd =>
        min (totalItems - 1) (currentIndex - currentIndex % cols + cols - 1)
    | NavDirection.homeGlobal => 0
    | NavDirection.endGlobal => totalItems - 1
    | NavDirection.pageUp => max 0 (currentIndex - cols * visibleRows)
    | NavDirection.pageDown => min (totalItems - 1) (currentIndex + cols * visibleRows)

/-- Result of `moveFocus`: the new focus state, the returned index, and the
`onFocusChange` count. -/
structure MoveFocusResult (α : Type) where
  state : FocusState α
  result : Int
  notifies : Nat
  deriving DecidableEq, Repr

/-- `moveFocus` from `useFocus`. -/
def moveFocus (items : List T) (getId : T → α) (st : FocusState α)
    (direction : NavDirection) (cols visibleRows : Int) : MoveFocusResult α :=
  if items.length = 0 then ⟨st, -1, 0⟩
  else
    let currentIndex := focusedIndex items getId st
    let targetIndex :=
      calculateTargetIndex currentIndex direction cols (items.length : Int) visibleRows
    if targetIndex ≠ currentIndex ∧ 0 ≤ targetIndex then
      let fr := setFocusByIndex items getId st targetIndex
      ⟨fr.state, targetIndex, fr.notifies⟩
    else ⟨st, targetIndex, 0⟩

theorem findIndexOf_ge_neg_one (items : List T) (p : T → Bool) :
    -1 ≤ findIndexOf items p := by
  unfold findIndexOf
  split <;> omega

theorem findIndexOf_lt_length (items : List T) (p : T → Bool)
    (h : 0 ≤ findIndexOf items p) :
    findIndexOf items p < (items.length : Int) := by
  unfold findIndexOf at *
  split at h
  · rename_i i hi
    have hlt := (List.findIdx?_eq_some_iff_getElem.mp hi).fst
    exact_mod_cast hlt
  · omega

theorem focusedIndex_ge_neg_one (items : List T) (getId : T → α) (st : FocusState α) :
    -1 ≤ focusedIndex items getId st := by
  unfold focusedIndex
  split
  · omega
  · exact findIndexOf_ge_neg_one _ _

theorem focusedIndex_lt_length (items : List T) (getId : T → α) (st : FocusState α)
    (h : 0 ≤ focusedIndex items getId st) :
    focusedIndex items getId st < (items.length : Int) := by
  unfold focusedIndex at *
  split at h
  · omega
  · exact findIndexOf_lt_length _ _ h

theorem moveFocus_result_eq (items : List T) (getId : T → α) (st : FocusState α)
    (direction : NavDirection) (cols v : Int) (h : items.length ≠ 0) :
    (moveFocus items getId st direction cols v).result
      = calculateTargetIndex (focusedIndex items getId st) direction cols
          (items.length : Int) v := by
  unfold moveFocus
  simp only [h, if_false]
  split <;> rfl

theorem home_offset_nonneg (i cols : Int) (hi : 0 ≤ i) (hcols : 1 ≤ cols) :
    0 ≤ i - i % cols := by
  have hne : cols ≠ 0 := by omega
  have hdef := Int.ediv_add_emod i cols
  have hdiv : 0 ≤ i / cols := Int.ediv_nonneg hi (by omega)
  nlinarith [Int.emod_nonneg i hne]

theorem emod_le_self (i cols : Int) (hi : 0 ≤ i) (hcols : 1 ≤ cols) :
    i % cols ≤ i := by
  have := home_offset_nonneg i cols hi hcols
  omega

theorem calculateTargetIndex_range (i : Int) (direction : NavDirection)
    (cols n v : Int) (hn : 1 ≤ n) (hcols : 1 ≤ cols) (hv : 0 ≤ v)
    (hi : i ≤ n - 1) :
    0 ≤ calculateTargetIndex i direction cols n v ∧
      calculateTargetIndex i direction cols n v ≤ n - 1 := by
  unfold calculateTargetIndex
  have hn0 : ¬(n = 0) := by omega
  have hcv : (0 : Int) ≤ cols * v := mul_nonneg (by omega) hv
  by_cases hneg : i < 0
  · simp [hn0, hneg]
    omega
  · have hi0 : 0 ≤ i := by omega
    have hmod0 : 0 ≤ i % cols := Int.emod_nonneg i (by omega)
    have hmodle : i % cols ≤ i := emod_le_self i cols hi0 hcols
    have hoff : 0 ≤ i - i % cols := home_offset_nonneg i cols hi0 hcols
    simp only [hn0, if_false, hneg, if_false]
    cases direction <;>
      constructor <;>
      simp [le_max_iff, max_le_iff, le_min_iff, min_le_iff] <;>
      omega

/-- Claim C4: `moveFocus` computes exactly the specified saturated index
arithmetic: for `n ≥ 1`, `cols ≥ 1` and current focused index `i`, each
direction returns the specified clamped target; a negative `i` yields `0`
for every direction; an empty list yields `-1`; and every returned index
stays inside `[0, n-1]` (clamps saturate, they never wrap). -/
theorem C4_moveFocus_arithmetic (items : List T) (getId : T → α) (st : FocusState α)
    (cols v i : Int) (hn : 1 ≤ (items.length : Int)) (hcols : 1 ≤ cols)
    (hv : 0 ≤ v) (hi : focusedIndex items getId st = i) :
    (0 ≤ i →
      (moveFocus items getId st NavDirection.left cols v).result = max 0 (i - 1) ∧
      (moveFocus items getId st NavDirection.right cols v).result
        = min ((items.length : Int) - 1) (i + 1) ∧
      (moveFocus items getId st NavDirection.up cols v).result = max 0 (i - cols) ∧
      (moveFocus items getId st NavDirection.down cols v).result
        = min ((items.length : Int) - 1) (i + cols) ∧
      (moveFocus items getId st NavDirection.home cols v).result = i - i % cols ∧
      (moveFocus items getId st NavDirection.rowEnd cols v).result
        = min ((items.length : Int) - 1) (i - i % cols + cols - 1) ∧
      (moveFocus items getId st NavDirection.homeGlobal cols v).result = 0 ∧
      (moveFocus items getId st NavDirection.endGlobal cols v).result
        = (items.length : Int) - 1 ∧
      (moveFocus items getId st NavDirection.pageUp cols v).result
        = max 0 (i - cols * v) ∧
      (moveFocus items getId st NavDirection.pageDown cols v).result
        = min ((items.length : Int) - 1) (i + cols * v)) ∧
    (i < 0 → ∀ direction,
      (moveFocus items getId st direction cols v).result = 0) ∧
    (∀ (st0 : FocusState α) direction cols0 v0,
      (moveFocus ([] : List T) getId st0 direction cols0 v0).result = -1) ∧
    (∀ direction,
      0 ≤ (moveFocus items getId st direction cols v).result ∧
      (moveFocus items getId st direction cols v).result ≤ (items.length : Int) - 1) := by
  have hne : items.length ≠ 0 := by omega
  have hn0 : ¬((items.length : Int) = 0) := by omega
  refine ⟨?_, ?_, ?_, ?_⟩
  · intro h0
    have hlt : ¬(i < 0) := by omega
    refine ⟨?_, ?_, ?_, ?_, ?_, ?_, ?_, ?_, ?_, ?_⟩ <;>
      rw [moveFocus_result_eq items getId st _ cols v hne, hi] <;>
      simp [calculateTargetIndex, hn0, hlt]
  · intro h0 direction
    rw [moveFocus_result_eq items getId st _ cols v hne, hi]
    simp [calculateTargetIndex, hn0, h0]
  · intro st0 direction cols0 v0
    simp [moveFocus]
  · intro direction
    rw [moveFocus_result_eq items getId st _ cols v hne, hi]
    have hle : i ≤ (items.length : Int) - 1 := by
      by_cases h0 : 0 ≤ i
      · have := focusedIndex_lt_length items getId st (hi ▸ h0)
        omega
      · omega
    exact calculateTargetIndex_range i direction cols _ v hn hcols hv hle

/-- Witness for C4 at the spec's concrete scenario: ten items in four
columns, focus at index 6: `home` goes to index 4. -/
theorem C4_witness :
    (moveFocus [0, 1, 2, 3, 4, 5, 6, 7, 8, 9] (fun n : ℕ => n)
      ⟨Option.some 6⟩ NavDirection.home 4 5).result = 4 := by
  have h := C4_moveFocus_arithmetic [0, 1, 2, 3, 4, 5, 6, 7, 8, 9]
    (fun n : ℕ => n) ⟨Option.some 6⟩ 4 5 6 (by decide) (by decide) (by decide)
    (by decide)
  have h6 := (h.1 (by decide)).2.2.2.2.1
  rw [h6]
  decide

/-! ## Notification discipline of the selection engine -/

theorem select_notify_spec (mode : SelectionMode) (st : SelState α) (id : α) :
    (select mode st id).notifies ≤ 1 ∧
    ((select mode st id).notifies = 0 →
      (select mode st id).state.selectedIds = st.selectedIds) := by
  unfold select
  (repeat' split) <;> simp

theorem deselect_notify_spec (st : SelState α) (id : α) :
    (deselect st id).notifies ≤ 1 ∧
    ((deselect st id).notifies = 0 →
      (deselect st id).state.selectedIds = st.selectedIds) := by
  unfold deselect
  (repeat' split) <;> simp

theorem toggle_notify_spec (mode : SelectionMode) (st : SelState α) (id : α) :
    (toggle mode st id).notifies ≤ 1 ∧
    ((toggle mode st id).notifies = 0 →
      (toggle mode st id).state.selectedIds = st.selectedIds) := by
  unfold toggle
  (repeat' split) <;>
    first
      | simp
      | exact deselect_notify_spec st _
      | exact select_notify_spec mode st _

theorem selectOnly_notify_spec (mode : SelectionMode) (st : SelState α) (id : α) :
    (selectOnly mode st id).notifies ≤ 1 ∧
    ((selectOnly mode st id).notifies = 0 →
      (selectOnly mode st id).state.selectedIds = st.selectedIds) := by
  unfold selectOnly
  (repeat' split) <;> simp

theorem selectMultiple_notify_spec (mode : SelectionMode) (st : SelState α)
    (ids : List α) :
    (selectMultiple mode st ids).notifies ≤ 1 ∧
    ((selectMultiple mode st ids).notifies = 0 →
      (selectMultiple mode st ids).state.selectedIds = st.selectedIds) := by
  unfold selectMultiple
  (repeat' split) <;> simp

theorem selectRange_notify_spec (mode : SelectionMode) (st : SelState α)
    (ids : List α) :
    (selectRange mode st ids).notifies ≤ 1 ∧
    ((selectRange mode st ids).notifies = 0 →
      (selectRange mode st ids).state.selectedIds = st.selectedIds) := by
  unfold selectRange
  (repeat' split) <;> simp

theorem selectAll_notify_spec (mode : SelectionMode) (st : SelState α)
    (ids : List α) :
    (selectAll mode st ids).notifies ≤ 1 ∧
    ((selectAll mode st ids).notifies = 0 →
      (selectAll mode st ids).state.selectedIds = st.selectedIds) := by
  unfold selectAll
  (repeat' split) <;> simp

theorem clear_notify_spec (st : SelState α) :
    (clear st).notifies ≤ 1 ∧
    ((clear st).notifies = 0 → (clear st).state.selectedIds = st.selectedIds) := by
  unfold clear
  (repeat' split) <;> simp

theorem applyCall_notify_spec (mode : SelectionMode) (st : SelState α)
    (c : SelCall α) :
    (applyCall mode st c).notifies ≤ 1 ∧
    ((applyCall mode st c).notifies = 0 →
      (applyCall mode st c).state.selectedIds = st.selectedIds) := by
  cases c with
  | select id => exact select_notify_spec mode st id
  | deselect id => exact deselect_notify_spec st id
  | toggle id => exact toggle_notify_spec mode st id
  | selectOnly id => exact selectOnly_notify_spec mode st id
  | selectMultiple ids => exact selectMultiple_notify_spec mode st ids
  | selectRange ids => exact selectRange_notify_spec mode st ids
  | selectAll ids => exact selectAll_notify_spec mode st ids
  | clear => exact clear_notify_spec st
  | setAnchor id => simp [applyCall, setAnchor]

/-- Claim C6: every mutation call notifies `onSelectionChange` at most once
(never once per element), any call that changes the selected set notifies
exactly once, and the two out-of-domain no-ops — `deselect` of an absent id
and `clear` of an empty set — notify not at all. -/
theorem C6_notification_exactly_once (mode : SelectionMode) (st : SelState α)
    (c : SelCall α) :
    (applyCall mode st c).notifies ≤ 1 ∧
    ((applyCall mode st c).state.selectedIds ≠ st.selectedIds →
      (applyCall mode st c).notifies = 1) ∧
    (∀ id : α, id ∉ st.selectedIds →
      applyCall mode st (SelCall.deselect id) = ⟨st, 0⟩) ∧
    (st.selectedIds = [] → applyCall mode st SelCall.clear = ⟨st, 0⟩) := by
  refine ⟨(applyCall_notify_spec mode st c).1, ?_, ?_, ?_⟩
  · intro hne
    have hspec := applyCall_notify_spec mode st c
    rcases Nat.le_one_iff_eq_zero_or_eq_one.mp hspec.1 with h0 | h1
    · exact absurd (hspec.2 h0) hne
    · exact h1
  · intro id hid
    simp [applyCall, deselect, hid]
  · intro hempty
    simp [applyCall, clear, hempty]

/-- Witness for C6: in multiple mode, selecting a fresh id into `{0}`
changes membership and notifies exactly once. -/
theorem C6_witness :
    (applyCall SelectionMode.multiple (⟨[0], Option.none⟩ : SelState ℕ)
      (SelCall.select 1)).notifies = 1 := by
  have h := C6_notification_exactly_once SelectionMode.multiple
    (⟨[0], Option.none⟩ : SelState ℕ) (SelCall.select 1)
  exact h.2.1 (by decide)

/-- Claim C10: `selectOnly` never suppresses its notification: outside mode
`none`, every call notifies once, and two consecutive `selectOnly x` calls
leave the same set while both calls fire the callback. -/
theorem C10_selectOnly_always_notifies (mode : SelectionMode) (st : SelState α)
    (x : α) (hmode : mode ≠ SelectionMode.none) :
    (selectOnly mode st x).notifies = 1 ∧
    (selectOnly mode (selectOnly mode st x).state x).state.selectedIds
      = (selectOnly mode st x).state.selectedIds ∧
    (selectOnly mode (selectOnly mode st x).state x).notifies = 1 := by
  simp [selectOnly, hmode]

/-- Witness for C10: with the set already `{5}`, `selectOnly 5` still
notifies, twice over two calls. -/
theorem C10_witness :
    (selectOnly SelectionMode.multiple (⟨[5], Option.none⟩ : SelState ℕ) 5).notifies
      = 1 := by
  have h := C10_selectOnly_always_notifies SelectionMode.multiple
    (⟨[5], Option.none⟩ : SelState ℕ) 5 (by decide)
  exact h.1

/-! ## Orchestrator public selection surface (`useExplorerGrid`) -/

/-- The orchestrator's public `selectOnly`: `selection.selectOnly(id)`
followed by `selection.setAnchor(id)`.  No existence check against the item
list is performed. -/
def gridSelectOnly (mode : SelectionMode) (st : SelState α) (id : α) :
    SelResult α :=
  let r := selectOnly mode st id
  ⟨(setAnchor r.state (Option.some id)).state, r.notifies⟩

/-- The orchestrator's public `toggle`: delegates straight to the engine,
with no existence check against the item list. -/
def gridToggle (mode : SelectionMode) (st : SelState α) (id : α) : SelResult α :=
  toggle mode st id

/-- Counterexample to claim C5: id `99` is absent from the item list
`[1, 2, 3]`, yet the public `selectOnly 99` (and equally `toggle 99`)
mutates the empty selection into `{99}` — selecting an out-of-list id is
not a no-op. -/
theorem C5_counterexample :
    (¬ ([1, 2, 3] : List ℕ).any (fun it => decide (it = 99))) ∧
    (gridSelectOnly SelectionMode.multiple (⟨[], Option.none⟩ : SelState ℕ)
        99).state.selectedIds = [99] ∧
    (gridToggle SelectionMode.multiple (⟨[], Option.none⟩ : SelState ℕ)
        99).state.selectedIds = [99] := by
  refine ⟨by decide, ?_, ?_⟩ <;> decide

/-- Claim C5 as amended: focusing an id absent from the item list is a
silent no-op without notification, but the selection surface performs no
such existence check — outside mode `none`, `selectOnly` of an absent id
replaces the selection with that id (and `toggle`/`select` likewise operate
on it). -/
theorem C5_absent_id_behaviour (items : List T) (getId : T → α)
    (fst : FocusState α) (id : α)
    (habsent : ¬ items.any (fun it => decide (getId it = id))) :
    setFocusById items getId fst id = ⟨fst, 0⟩ ∧
    (∀ (mode : SelectionMode) (sst : SelState α), mode ≠ SelectionMode.none →
      (gridSelectOnly mode sst id).state.selectedIds = [id] ∧
      (gridSelectOnly mode sst id).notifies = 1) := by
  constructor
  · simp [setFocusById, habsent]
  · intro mode sst hmode
    simp [gridSelectOnly, selectOnly, setAnchor, hmode]

/-- Witness for the amended C5: focusing absent id `99` over items
`[1, 2, 3]` is a silent no-op, while `selectOnly 99` rewrites the selection. -/
theorem C5_witness :
    setFocusById ([1, 2, 3] : List ℕ) (fun n => n)
        (⟨Option.some 2⟩ : FocusState ℕ) 99
      = ⟨⟨Option.some 2⟩, 0⟩ ∧
    (gridSelectOnly SelectionMode.single (⟨[2], Option.some 2⟩ : SelState ℕ)
        99).state.selectedIds = [99] := by
  have h := C5_absent_id_behaviour ([1, 2, 3] : List ℕ) (fun n => n)
    (⟨Option.some 2⟩ : FocusState ℕ) 99 (by decide)
  exact ⟨h.1, (h.2 SelectionMode.single (⟨[2], Option.some 2⟩ : SelState ℕ)
    (by decide)).1⟩

/-! ## Item-list reconciliation (`useExplorerGrid` items watch) -/

/-- `idToIndexMap.has(id)` after the map is rebuilt from the new item list:
id presence in the list. -/
def idPresent (getId : T → α) (items : List T) (id : α) : Bool :=
  items.any (fun it => decide (getId it = id))

/-- The focus half of the orchestrator's items watch: when the focused id
is gone, refocus the position the old focused item occupied, clamped to the
new length, clearing focus when the new list is empty.  When the focused id
survives (or was never in the old list), nothing happens. -/
def reconcileFocus (getId : T → α) (oldItems newItems : List T)
    (st : FocusState α) : FocusResult α :=
  match st.focusedId with
  | Option.none => ⟨st, 0⟩
  | Option.some fid =>
    if idPresent getId newItems fid then ⟨st, 0⟩
    else
      match oldItems.findIdx? (fun it => decide (getId it = fid)) with
      | Option.none => ⟨st, 0⟩
      | Option.some oldIndex =>
        let newIndex : Int := min (oldIndex : Int) ((newItems.length : Int) - 1)
        if 0 ≤ newIndex then setFocusByIndex newItems getId st newIndex
        else clearFocus st

/-- The selection half of the orchestrator's items watch: prune the
selected ids to those still present; call `selectRange` with the pruned
list only when the lengths differ. -/
def reconcileSelection (mode : SelectionMode) (getId : T → α)
    (newItems : List T) (sel : SelState α) : SelResult α :=
  let pruned := sel.selectedIds.filter (fun id => idPresent getId newItems id)
  if pruned.length ≠ sel.selectedIds.length then selectRange mode sel pruned
  else ⟨sel, 0⟩

/-- Claim C2: after the reconciliation pass, the selected-id set is a
subset of the ids of the new list; pruned ids drop out silently, and the
single standard selection-change notification fires exactly when at least
one id was actually pruned.  (A `none`-mode engine holds an empty set by
the C1 invariant, taken as a hypothesis here.) -/
theorem C2_pruning_invariant (mode : SelectionMode) (getId : T → α)
    (newItems : List T) (sel : SelState α)
    (hnone : mode = SelectionMode.none → sel.selectedIds = []) :
    (∀ id ∈ (reconcileSelection mode getId newItems sel).state.selectedIds,
      idPresent getId newItems id = true) ∧
    ((reconcileSelection mode getId newItems sel).notifies = 1 ↔
      ∃ id ∈ sel.selectedIds, idPresent getId newItems id = false) ∧
    (reconcileSelection mode getId newItems sel).notifies ≤ 1 := by
  unfold reconcileSelection
  by_cases hlen : (sel.selectedIds.filter
      (fun id => idPresent getId newItems id)).length = sel.selectedIds.length
  · have hall := List.filter_length_eq_length.mp hlen
    simp only [hlen, ne_eq, not_true_eq_false, if_false]
    refine ⟨hall, ?_, by omega⟩
    simp only [Nat.zero_ne_one, false_iff]
    rintro ⟨id, hid, hfalse⟩
    rw [hall id hid] at hfalse
    cases hfalse
  · have hexists : ∃ id ∈ sel.selectedIds, idPresent getId newItems id = false := by
      by_contra hcon
      push_neg at hcon
      exact hlen (List.filter_length_eq_length.mpr (fun a ha => by
        have := hcon a ha
        simp only [ne_eq] at this
        cases h : idPresent getId newItems a
        · exact absurd h this
        · rfl))
    have hmodene : mode ≠ SelectionMode.none := by
      intro hmode
      rcases hexists with ⟨id, hid, _⟩
      rw [hnone hmode] at hid
      cases hid
    simp only [hlen, ne_eq, not_false_eq_true, if_true]
    unfold selectRange
    simp only [hmodene, if_false]
    have hmem : ∀ id ∈ sel.selectedIds.filter (fun id => idPresent getId newItems id),
        idPresent getId newItems id = true :=
      fun id hid => (List.mem_filter.mp hid).2
    split
    · rename_i lastId heq
      refine ⟨?_, by simp [hexists], by simp⟩
      intro id hid
      simp only [List.mem_singleton] at hid
      subst hid
      exact hmem _ (List.mem_of_getLast?_eq_some heq)
    · refine ⟨?_, by simp [hexists], by simp⟩
      intro id hid
      simp only [mem_setOf] at hid
      exact hmem _ hid

/-- Witness for C2: selection `{5, 3}` against a new list `[1, 2, 3]`
prunes to `{3}` with one notification. -/
theorem C2_witness :
    (reconcileSelection SelectionMode.multiple (fun n : ℕ => n) [1, 2, 3]
        ⟨[5, 3], Option.none⟩).state.selectedIds = [3] ∧
    (reconcileSelection SelectionMode.multiple (fun n : ℕ => n) [1, 2, 3]
        ⟨[5, 3], Option.none⟩).notifies = 1 := by
  have h := C2_pruning_invariant SelectionMode.multiple (fun n : ℕ => n)
    [1, 2, 3] ⟨[5, 3], Option.none⟩ (by intro h; cases h)
  exact ⟨by decide, h.2.1.mpr ⟨5, by decide, by decide⟩⟩

/-- Claim C3: when the previously focused id sat at index `k` of the old
list and is gone from the new one, focus lands on the id at index
`min k (newLength - 1)` of the new list (so `none` when the new list is
empty, since the lookup is out of range); a still-present focused id is
left untouched without notification. -/
theorem C3_focus_reconciliation (getId : T → α) (oldItems newItems : List T)
    (st : FocusState α) (fid : α) (k : Nat)
    (hfoc : st.focusedId = Option.some fid)
    (hold : oldItems.findIdx? (fun it => decide (getId it = fid)) = Option.some k) :
    (idPresent getId newItems fid = false →
      (reconcileFocus getId oldItems newItems st).state.focusedId
        = (newItems.get? (min k (newItems.length - 1))).map getId ∧
      (newItems = [] →
        (reconcileFocus getId oldItems newItems st).state.focusedId
          = Option.none)) ∧
    (idPresent getId newItems fid = true →
      reconcileFocus getId oldItems newItems st = ⟨st, 0⟩) := by
  constructor
  · intro habsent
    have hmain : (reconcileFocus getId oldItems newItems st).state.focusedId
        = (newItems.get? (min k (newItems.length - 1))).map getId := by
      unfold reconcileFocus
      rw [hfoc]
      simp only [habsent, Bool.false_eq_true, if_false, hold]
      cases hnew : newItems with
      | nil =>
        have : ¬ (0 : Int) ≤ min (k : Int) ((([] : List T).length : Int) - 1) := by
          simp
        simp only [this, if_false, clearFocus]
        simp
      | cons x xs =>
        rw [← hnew]
        have hlen : 1 ≤ newItems.length := by rw [hnew]; simp
        have hminnn : (0 : Int) ≤ min (k : Int) ((newItems.length : Int) - 1) := by
          have : (1 : Int) ≤ (newItems.length : Int) := by exact_mod_cast hlen
          omega
        simp only [hminnn, if_true]
        unfold setFocusByIndex getAtInt
        have hnotlt : ¬ (min (k : Int) ((newItems.length : Int) - 1) < 0) := by omega
        have htoNat : (min (k : Int) ((newItems.length : Int) - 1)).toNat
            = min k (newItems.length - 1) := by
          omega
        simp only [hnotlt, if_false, htoNat]
        have hget : min k (newItems.length - 1) < newItems.length := by omega
        rw [List.get?_eq_getElem?]
        rw [List.getElem?_eq_getElem hget]
        simp
    refine ⟨hmain, ?_⟩
    intro hnil
    rw [hmain, hnil]
    simp
  · intro hpresent
    unfold reconcileFocus
    rw [hfoc]
    simp [hpresent]

/-- Witness for C3 at the spec's concrete scenario 4: focus on id 5 at
index 4 of `[1, ..., 10]`; after replacing the list with
`[1, 2, 3, 4, 6, 7, 8, 9, 10]` the focus lands on id 6. -/
theorem C3_witness :
    (reconcileFocus (fun n : ℕ => n) [1, 2, 3, 4, 5, 6, 7, 8, 9, 10]
        [1, 2, 3, 4, 6, 7, 8, 9, 10] ⟨Option.some 5⟩).state.focusedId
      = Option.some 6 := by
  have h := C3_focus_reconciliation (fun n : ℕ => n)
    [1, 2, 3, 4, 5, 6, 7, 8, 9, 10] [1, 2, 3, 4, 6, 7, 8, 9, 10]
    ⟨Option.some 5⟩ 5 4 (by decide) (by decide)
  rw [(h.1 (by decide)).1]
  decide

/-! ## KeyboardRouter (`useKeyboard`) -/

/-- The platform-neutral shape of a keyboard event. -/
structure KeyEvent where
  key : String
  shiftKey : Bool
  ctrlKey : Bool
  metaKey : Bool
  altKey : Bool

/-- The `navigationKeys` array from `useKeyboard`. -/
def navigationKeys : List String :=
  ["ArrowUp", "ArrowDown", "ArrowLeft", "ArrowRight", "Home", "End",
   "PageUp", "PageDown"]

/-- The key-to-direction switch in `useKeyboard.handleKeydown`. -/
def navDirectionFor (key : String) (modKey : Bool) : Option NavDirection :=
  if key = "ArrowUp" then Option.some NavDirection.up
  else if key = "ArrowDown" then Option.some NavDirection.down
  else if key = "ArrowLeft" then Option.some NavDirection.left
  else if key = "ArrowRight" then Option.some NavDirection.right
  else if key = "Home" then
    Option.some (if modKey then NavDirection.homeGlobal else NavDirection.home)
  else if key = "End" then
    Option.some (if modKey then NavDirection.endGlobal else NavDirection.rowEnd)
  else if key = "PageUp" then Option.some NavDirection.pageUp
  else if key = "PageDown" then Option.some NavDirection.pageDown
  else Option.none

/-- `getIdsInRange` from `useKeyboard`: the ids at the inclusive index
range between the two arguments, direction-agnostic.  Call sites keep the
indices inside `[0, n)`; out-of-range indices contribute nothing here. -/
def getIdsInRange (items : List T) (getId : T → α) (fromIndex toIndex : Int) :
    List α :=
  let start := min fromIndex toIndex
  let stop := max fromIndex toIndex
  (List.range (stop - start + 1).toNat).filterMap
    (fun k : Nat => (getAtInt items (start + (k : Int))).map getId)

/-- Combined focus and selection state as seen by the keyboard router. -/
structure KbState (α : Type) where
  focus : FocusState α
  sel : SelState α
  deriving DecidableEq, Repr

/-- `handleKeydown` from `useKeyboard` (`Enter` only invokes the `onOpen`
collaborator callback, hence leaves this state untouched). -/
def handleKeydown (mode : SelectionMode) (selectOnFocus : Bool) (items : List T)
    (getId : T → α) (cols visibleRows : Int) (st : KbState α) (e : KeyEvent) :
    KbState α :=
  let modKey := e.ctrlKey || e.metaKey
  let multiSelect := decide (mode = SelectionMode.multiple)
  if e.key ∈ navigationKeys then
    let currentIndex := focusedIndex items getId st.focus
    let anchorIndex :=
      match st.sel.anchorId with
      | Option.some a => findIndexOf items (fun it => decide (getId it = a))
      | Option.none => currentIndex
    match navDirectionFor e.key modKey with
    | Option.none => st
    | Option.some direction =>
      let mv := moveFocus items getId st.focus direction cols visibleRows
      let st1 : KbState α := ⟨mv.state, st.sel⟩
      if mv.result < 0 then st1
      else if e.shiftKey && multiSelect then
        let rangeIds :=
          getIdsInRange items getId (if 0 ≤ anchorIndex then anchorIndex else 0)
            mv.result
        ⟨st1.focus, (selectRange mode st1.sel rangeIds).state⟩
      else if modKey then st1
      else if selectOnFocus then
        match (getAtInt items mv.result).map getId with
        | Option.some newId =>
            ⟨st1.focus,
             (setAnchor (selectOnly mode st1.sel newId).state
               (Option.some newId)).state⟩
        | Option.none => st1
      else st1
  else if e.key = "Enter" then st
  else if e.key = " " then
    match st.focus.focusedId with
    | Option.some fid =>
        if multiSelect then
          ⟨st.focus, (setAnchor (toggle mode st.sel fid).state
            (Option.some fid)).state⟩
        else
          ⟨st.focus, (setAnchor (selectOnly mode st.sel fid).state
            (Option.some fid)).state⟩
    | Option.none => st
  else if e.key = "a" && modKey && multiSelect then
    ⟨st.focus, (selectAll mode st.sel (items.map getId)).state⟩
  else if e.key = "Escape" then
    ⟨st.focus, (clear st.sel).state⟩
  else st

theorem navDirectionFor_mem (key : String) (modKey : Bool) (dir : NavDirection)
    (h : navDirectionFor key modKey = Option.some dir) : key ∈ navigationKeys := by
  unfold navDirectionFor at h
  split_ifs at h <;> simp_all [navigationKeys]

theorem selectRange_multiple (st : SelState α) (ids : List α) :
    selectRange SelectionMode.multiple st ids = ⟨⟨setOf ids, st.anchorId⟩, 1⟩ := by
  cases h : ids.getLast? <;> simp [selectRange, h]

theorem getIdsInRange_comm (items : List T) (getId : T → α) (a b : Int) :
    getIdsInRange items getId a b = getIdsInRange items getId b a := by
  unfold getIdsInRange
  rw [min_comm, max_comm]

theorem mem_getIdsInRange (items : List T) (getId : T → α) (a b : Int) (x : α)
    (ha : 0 ≤ a) (hb : 0 ≤ b) :
    x ∈ getIdsInRange items getId a b ↔
      ∃ i : Nat, min a b ≤ (i : Int) ∧ (i : Int) ≤ max a b ∧
        ∃ it, getAtInt items (i : Int) = Option.some it ∧ getId it = x := by
  unfold getIdsInRange
  have hstart : 0 ≤ min a b := le_min ha hb
  have hss : min a b ≤ max a b := min_le_max
  rw [List.mem_filterMap]
  constructor
  · rintro ⟨k, hk, heq⟩
    rw [List.mem_range] at hk
    rcases Option.map_eq_some'.mp heq with ⟨it, hit, hx⟩
    refine ⟨(min a b + (k : Int)).toNat, ?_, ?_, it, ?_, hx⟩
    · omega
    · have : (k : Int) < (max a b - min a b + 1 : Int).toNat := by exact_mod_cast hk
      omega
    · have : ((min a b + (k : Int)).toNat : Int) = min a b + (k : Int) := by omega
      rw [this]
      exact hit
  · rintro ⟨i, hlo, hhi, it, hit, hx⟩
    refine ⟨(( i : Int) - min a b).toNat, ?_, ?_⟩
    · rw [List.mem_range]
      omega
    · have : min a b + (((i : Int) - min a b).toNat : Int) = (i : Int) := by omega
      rw [this, hit]
      simp [hx]

/-- Claim C7: in multiple mode, a Shift + navigation keystroke with an
anchored, present anchor first moves focus via `moveFocus` and then
replaces the selection (through `selectRange`) with exactly the ids of the
inclusive index range between the anchor index and the new focus index;
the range is direction-agnostic and the anchor itself is untouched. -/
theorem C7_shift_navigation_range (selectOnFocus : Bool) (items : List T)
    (getId : T → α) (cols visibleRows : Int) (st : KbState α) (e : KeyEvent)
    (a : α) (aIdx : Int) (direction : NavDirection)
    (hshift : e.shiftKey = true)
    (hdir : navDirectionFor e.key (e.ctrlKey || e.metaKey) = Option.some direction)
    (hanchor : st.sel.anchorId = Option.some a)
    (hafind : findIndexOf items (fun it => decide (getId it = a)) = aIdx)
    (haIdx : 0 ≤ aIdx)
    (hn : 1 ≤ (items.length : Int)) (hcols : 1 ≤ cols) (hv : 0 ≤ visibleRows) :
    (handleKeydown SelectionMode.multiple selectOnFocus items getId cols
        visibleRows st e).focus
      = (moveFocus items getId st.focus direction cols visibleRows).state ∧
    (handleKeydown SelectionMode.multiple selectOnFocus items getId cols
        visibleRows st e).sel.selectedIds
      = setOf (getIdsInRange items getId aIdx
          (moveFocus items getId st.focus direction cols visibleRows).result) ∧
    (handleKeydown SelectionMode.multiple selectOnFocus items getId cols
        visibleRows st e).sel.anchorId = Option.some a ∧
    (∀ x : α,
      x ∈ (handleKeydown SelectionMode.multiple selectOnFocus items getId cols
        visibleRows st e).sel.selectedIds ↔
      ∃ i : Nat,
        min aIdx (moveFocus items getId st.focus direction cols visibleRows).result
          ≤ (i : Int) ∧
        (i : Int) ≤
          max aIdx (moveFocus items getId st.focus direction cols visibleRows).result ∧
        ∃ it, getAtInt items (i : Int) = Option.some it ∧ getId it = x) ∧
    getIdsInRange items getId aIdx
        (moveFocus items getId st.focus direction cols visibleRows).result
      = getIdsInRange items getId
          (moveFocus items getId st.focus direction cols visibleRows).result aIdx := by
  have hne : items.length ≠ 0 := by omega
  have hi : focusedIndex items getId st.focus ≤ (items.length : Int) - 1 := by
    by_cases h0 : 0 ≤ focusedIndex items getId st.focus
    · have := focusedIndex_lt_length items getId st.focus h0
      omega
    · omega
  have hres := calculateTargetIndex_range (focusedIndex items getId st.focus)
    direction cols (items.length : Int) visibleRows hn hcols hv hi
  have hm : 0 ≤ (moveFocus items getId st.focus direction cols visibleRows).result := by
    rw [moveFocus_result_eq items getId st.focus direction cols visibleRows hne]
    exact hres.1
  have hkey : e.key ∈ navigationKeys := navDirectionFor_mem _ _ _ hdir
  have hred : handleKeydown SelectionMode.multiple selectOnFocus items getId cols
      visibleRows st e =
      ⟨(moveFocus items getId st.focus direction cols visibleRows).state,
       (selectRange SelectionMode.multiple st.sel
         (getIdsInRange items getId aIdx
           (moveFocus items getId st.focus direction cols visibleRows).result)).state⟩ := by
    unfold handleKeydown
    simp only [hkey, if_true, hdir, hanchor, hafind, haIdx, if_true, hshift,
      Bool.true_and, decide_eq_true_eq]
    have hnotlt : ¬ ((moveFocus items getId st.focus direction cols
        visibleRows).result < 0) := by omega
    simp [hnotlt, haIdx]
  rw [hred]
  have hselred := selectRange_multiple st.sel
    (getIdsInRange items getId aIdx
      (moveFocus items getId st.focus direction cols visibleRows).result)
  rw [hselred]
  refine ⟨rfl, rfl, by rw [hanchor], ?_, getIdsInRange_comm items getId _ _⟩
  intro x
  simp only [mem_setOf]
  exact mem_getIdsInRange items getId aIdx _ x haIdx hm

/-- Witness for C7: ten items in four columns, anchor id 3 (index 2),
focus id 6 (index 5); Shift+ArrowDown moves focus to index 9 and selects
exactly ids 3 through 10. -/
theorem C7_witness :
    (handleKeydown SelectionMode.multiple true
        [1, 2, 3, 4, 5, 6, 7, 8, 9, 10] (fun n : ℕ => n) 4 5
        ⟨⟨Option.some 6⟩, ⟨[6], Option.some 3⟩⟩
        ⟨"ArrowDown", true, false, false, false⟩).sel.selectedIds
      = [3, 4, 5, 6, 7, 8, 9, 10] := by
  have h := C7_shift_navigation_range true
    [1, 2, 3, 4, 5, 6, 7, 8, 9, 10] (fun n : ℕ => n) 4 5
    ⟨⟨Option.some 6⟩, ⟨[6], Option.some 3⟩⟩
    ⟨"ArrowDown", true, false, false, false⟩ 3 2 NavDirection.down
    (by decide) (by decide) (by decide) (by decide) (by decide)
    (by decide) (by decide) (by decide)
  rw [h.2.1]
  decide

/-! ## TypeaheadMatcher (`useTypeahead`) -/

/-- JavaScript `toLowerCase`, modelled per character (the engine only
relies on case-insensitivity of the comparison). -/
def jsToLower (s : String) : String :=
  String.mk (s.data.map Char.toLower)

/-- JavaScript `startsWith`: prefix test on the character sequence. -/
def jsStartsWith (s pre : String) : Bool :=
  pre.data.isPrefixOf s.data

/-- The loop-body test of `findMatch`: does the item at index `i` have a
lowercased label starting with the (lowercased) search string?  `false` out
of range (the source never evaluates it out of range). -/
def labelMatches (getLabel : T → String) (norm : String) (items : List T)
    (i : Nat) : Bool :=
  match items.get? i with
  | Option.some it => jsStartsWith (jsToLower (getLabel it)) norm
  | Option.none => false

/-- `findMatch` from `useTypeahead`: scan `startIndex .. n-1`, then wrap to
`0 .. startIndex-1`; `-1` when nothing matches. -/
def findMatch (items : List T) (getLabel : T → String) (searchString : String)
    (startIndex : Nat) : Int :=
  if items.length = 0 then -1
  else
    let norm := jsToLower searchString
    match (List.range' startIndex (items.length - startIndex)).find?
        (labelMatches getLabel norm items) with
    | Option.some i => (i : Int)
    | Option.none =>
      match (List.range startIndex).find? (labelMatches getLabel norm items) with
      | Option.some i => (i : Int)
      | Option.none => -1

/-- Typeahead state: the keystroke buffer plus the focus engine state it
drives. -/
structure TypeaheadState (α : Type) where
  buffer : String
  focus : FocusState α
  deriving DecidableEq, Repr

/-- `handleKeypress` from `useTypeahead` (the debounce timer only clears
the buffer later and is not part of this synchronous step). -/
def handleKeypress (items : List T) (getLabel : T → String) (getId : T → α)
    (st : TypeaheadState α) (e : KeyEvent) : TypeaheadState α :=
  if e.key.length ≠ 1 ∨ e.ctrlKey = true ∨ e.metaKey = true ∨ e.altKey = true then st
  else if e.key = " " then st
  else
    let buffer := st.buffer ++ e.key
    let startIndex : Int := focusedIndex items getId st.focus + 1
    let matchIndex :=
      findMatch items getLabel buffer
        (if 0 ≤ startIndex then startIndex else 0).toNat
    if 0 ≤ matchIndex then
      ⟨buffer, (setFocusByIndex items getId st.focus matchIndex).state⟩
    else ⟨buffer, st.focus⟩

theorem findMatch_eq_scan (items : List T) (getLabel : T → String)
    (s : String) (k : Nat) :
    findMatch items getLabel s k =
      match (List.range' k (items.length - k) ++ List.range k).find?
          (labelMatches getLabel (jsToLower s) items) with
      | Option.some i => (i : Int)
      | Option.none => -1 := by
  unfold findMatch
  by_cases h0 : items.length = 0
  · have hfalse : ∀ i, labelMatches getLabel (jsToLower s) items i = false := by
      intro i
      unfold labelMatches
      have : items.get? i = Option.none := by
        rw [List.get?_eq_getElem?, List.getElem?_eq_none]
        omega
      rw [this]
    simp only [h0, if_true]
    rw [List.find?_eq_none.mpr (fun a _ => by simp [hfalse a])]
  · simp only [h0, if_false, List.find?_append]
    cases hfst : (List.range' k (items.length - k)).find?
        (labelMatches getLabel (jsToLower s) items) <;>
      simp [Option.or, hfst]

theorem findMatch_found (items : List T) (getLabel : T → String)
    (s : String) (k : Nat) (i : Nat)
    (h : findMatch items getLabel s k = (i : Int)) :
    i < items.length ∧ labelMatches getLabel (jsToLower s) items i = true := by
  rw [findMatch_eq_scan] at h
  rcases hfind : (List.range' k (items.length - k) ++ List.range k).find?
      (labelMatches getLabel (jsToLower s) items) with _ | j
  · rw [hfind] at h
    simp at h
  · rw [hfind] at h
    simp only [Int.ofNat_inj] at h
    have hj : j = i := by exact_mod_cast h
    subst hj
    have hpred := List.find?_some hfind
    refine ⟨?_, hpred⟩
    unfold labelMatches at hpred
    rcases hget : items.get? j with _ | it
    · rw [hget] at hpred
      cases hpred
    · rw [List.get?_eq_getElem?] at hget
      have := List.getElem?_eq_some_iff.mp hget
      exact this.fst

/-- Claim C8: each typeahead keystroke appends to the buffer, resolves the
lowercased buffer by prefix search over lowercased labels scanning
`focusedIndex+1 .. n-1` and then wrapping to `0`, jumps focus to the first
match (which really is a matching in-range index), and leaves focus
untouched with the buffer persisting when nothing matches. -/
theorem C8_typeahead_prefix_search (items : List T) (getLabel : T → String)
    (getId : T → α) (st : TypeaheadState α) (e : KeyEvent)
    (hlen : e.key.length = 1) (hc : e.ctrlKey = false) (hm : e.metaKey = false)
    (ha : e.altKey = false) (hs : e.key ≠ " ") :
    (handleKeypress items getLabel getId st e).buffer = st.buffer ++ e.key ∧
    (∀ (s : String) (k : Nat),
      findMatch items getLabel s k =
        match (List.range' k (items.length - k) ++ List.range k).find?
            (labelMatches getLabel (jsToLower s) items) with
        | Option.some i => (i : Int)
        | Option.none => -1) ∧
    (findMatch items getLabel (st.buffer ++ e.key)
        (focusedIndex items getId st.focus + 1).toNat = -1 →
      (handleKeypress items getLabel getId st e).focus = st.focus) ∧
    (∀ i : Nat,
      findMatch items getLabel (st.buffer ++ e.key)
          (focusedIndex items getId st.focus + 1).toNat = (i : Int) →
      (handleKeypress items getLabel getId st e).focus.focusedId
        = (items.get? i).map getId ∧
      labelMatches getLabel (jsToLower (st.buffer ++ e.key)) items i = true) := by
  have hstart : (0 : Int) ≤ focusedIndex items getId st.focus + 1 := by
    have := focusedIndex_ge_neg_one items getId st.focus
    omega
  have hcond : ¬ (e.key.length ≠ 1 ∨ e.ctrlKey = true ∨ e.metaKey = true ∨
      e.altKey = true) := by
    simp [hlen, hc, hm, ha]
  have hred : handleKeypress items getLabel getId st e =
      (let buffer := st.buffer ++ e.key
       let matchIndex :=
         findMatch items getLabel buffer
           (focusedIndex items getId st.focus + 1).toNat
       if 0 ≤ matchIndex then
         ⟨buffer, (setFocusByIndex items getId st.focus matchIndex).state⟩
       else ⟨buffer, st.focus⟩) := by
    unfold handleKeypress
    simp only [hcond, if_false, hs, hstart, if_true]
  refine ⟨?_, fun s k => findMatch_eq_scan items getLabel s k, ?_, ?_⟩
  · rw [hred]
    simp only
    split <;> rfl
  · intro hnone
    rw [hred]
    simp [hnone]
  · intro i hfound
    have hprops := findMatch_found items getLabel (st.buffer ++ e.key) _ i hfound
    refine ⟨?_, hprops.2⟩
    rw [hred]
    simp only [hfound]
    have hpos : (0 : Int) ≤ (i : Int) := by omega
    simp only [hpos, if_true]
    unfold setFocusByIndex getAtInt
    have hnotneg : ¬ ((i : Int) < 0) := by omega
    simp only [hnotneg, if_false, Int.toNat_ofNat]
    rw [List.get?_eq_getElem?, List.getElem?_eq_getElem hprops.1]
    simp [Int.toNat_natCast]

/-- Witness for C8 at the spec's concrete scenario 5: labels
`Apple, Item 1, Item 2`, focus on `Item 1`, buffer `"i"` plus keystroke
`"t"`: the buffer becomes `"it"` and focus jumps to `Item 2`. -/
theorem C8_witness :
    (handleKeypress ["Apple", "Item 1", "Item 2"] (fun s => s) (fun s => s)
        ⟨"i", ⟨Option.some "Item 1"⟩⟩
        ⟨"t", false, false, false, false⟩).buffer = "it" ∧
    (handleKeypress ["Apple", "Item 1", "Item 2"] (fun s => s) (fun s => s)
        ⟨"i", ⟨Option.some "Item 1"⟩⟩
        ⟨"t", false, false, false, false⟩).focus.focusedId
      = Option.some "Item 2" := by
  have h := C8_typeahead_prefix_search ["Apple", "Item 1", "Item 2"]
    (fun s => s) (fun s => s) ⟨"i", ⟨Option.some "Item 1"⟩⟩
    ⟨"t", false, false, false, false⟩
    (by decide) (by decide) (by decide) (by decide) (by decide)
  refine ⟨h.1, ?_⟩
  have h2 := (h.2.2.2 2 (by decide)).1
  rw [h2]
  decide

/-! ## MarqueeHitTester (`useMarquee`) -/

/-- A DOM rectangle via its four edges (`DOMRect(x, y, w, h)` yields
`left = x`, `top = y`, `right = x + w`, `bottom = y + h`).  Coordinates are
modelled as rationals; the hit test only compares them. -/
structure Rect where
  left : ℚ
  top : ℚ
  right : ℚ
  bottom : ℚ
  deriving DecidableEq, Repr

/-- `MarqueeRect` in content (unscrolled) coordinates. -/
structure MarqueeRect where
  startX : ℚ
  startY : ℚ
  endX : ℚ
  endY : ℚ
  deriving DecidableEq, Repr

/-- The container metrics read inside `useMarquee`: bounding-rect origin
and scroll offsets. -/
structure ContainerMetrics where
  left : ℚ
  top : ℚ
  scrollLeft : ℚ
  scrollTop : ℚ
  deriving DecidableEq, Repr

/-- `getMarqueeDOMRect` from `useMarquee`: normalize the drag rectangle,
subtract the scroll offset and add the container origin. -/
def getMarqueeDOMRect (r : MarqueeRect) (c : ContainerMetrics) : Rect :=
  let left := min r.startX r.endX - c.scrollLeft
  let top := min r.startY r.endY - c.scrollTop
  let right := max r.startX r.endX - c.scrollLeft
  let bottom := max r.startY r.endY - c.scrollTop
  ⟨left + c.left, top + c.top,
   (left + c.left) + (right - left), (top + c.top) + (bottom - top)⟩

/-- `rectsIntersect` from `useMarquee`. -/
def rectsIntersect (a b : Rect) : Bool :=
  !(decide (a.right < b.left) || decide (a.left > b.right) ||
    decide (a.bottom < b.top) || decide (a.top > b.bottom))

/-- The `previouslySelected` snapshot taken by `startMarquee`: the current
selection when Ctrl/Cmd is held, empty otherwise. -/
def marqueeStartSnapshot (ctrlKey metaKey : Bool) (sel : SelState α) : List α :=
  if ctrlKey || metaKey then sel.selectedIds else []

/-- `updateSelection` from `useMarquee`: hit-test every currently rendered
item element, union the intersecting ids with the snapshot, and hand the
union to `selectRange`. -/
def marqueeUpdateSelection (mode : SelectionMode) (r : MarqueeRect)
    (c : ContainerMetrics) (rendered : List (α × Rect))
    (previouslySelected : List α) (sel : SelState α) : SelResult α :=
  let marqueeDOMRect := getMarqueeDOMRect r c
  let intersectingIds :=
    setOf ((rendered.filter (fun p => rectsIntersect marqueeDOMRect p.2)).map
      Prod.fst)
  let newSelection := intersectingIds.foldl setAdd (setOf previouslySelected)
  selectRange mode sel newSelection

/-- Claim C9: every active marquee update passes to `selectRange` exactly
the union of the drag-start snapshot (the selected ids when Ctrl/Cmd was
held at start, empty otherwise) with the ids of the currently rendered
item elements whose bounding rectangle intersects the marquee rectangle
under the specified open-edge test; never-rendered items cannot enter the
result, and the single `selectRange` notification fires. -/
theorem C9_marquee_hit_union (r : MarqueeRect) (c : ContainerMetrics)
    (rendered : List (α × Rect)) (ctrlKey metaKey : Bool)
    (sel0 sel : SelState α) :
    (marqueeStartSnapshot ctrlKey metaKey sel0
      = if ctrlKey || metaKey then sel0.selectedIds else []) ∧
    (∀ x : α,
      x ∈ (marqueeUpdateSelection SelectionMode.multiple r c rendered
            (marqueeStartSnapshot ctrlKey metaKey sel0) sel).state.selectedIds ↔
        (x ∈ marqueeStartSnapshot ctrlKey metaKey sel0 ∨
         ∃ rect, (x, rect) ∈ rendered ∧
           rectsIntersect (getMarqueeDOMRect r c) rect = true)) ∧
    (marqueeUpdateSelection SelectionMode.multiple r c rendered
      (marqueeStartSnapshot ctrlKey metaKey sel0) sel).notifies = 1 := by
  refine ⟨rfl, ?_, ?_⟩
  · intro x
    unfold marqueeUpdateSelection
    rw [selectRange_multiple]
    simp only [mem_setOf, mem_foldl_setAdd, List.mem_map, List.mem_filter]
    constructor
    · rintro (hprev | ⟨⟨y, rect⟩, ⟨hmem, hint⟩, rfl⟩)
      · exact Or.inl hprev
      · exact Or.inr ⟨rect, hmem, hint⟩
    · rintro (hprev | ⟨rect, hmem, hint⟩)
      · exact Or.inl hprev
      · exact Or.inr ⟨⟨x, rect⟩, ⟨hmem, hint⟩, rfl⟩
  · unfold marqueeUpdateSelection
    rw [selectRange_multiple]

/-- Witness for C9: with Ctrl held and id 7 selected at drag start, a
marquee covering the rendered rect of id 1 but not of id 2 selects exactly
`{7, 1}`: 7 via the snapshot, 1 via intersection, and 2 not at all. -/
theorem C9_witness :
    (7 : ℕ) ∈ (marqueeUpdateSelection SelectionMode.multiple
        ⟨0, 0, 10, 10⟩ ⟨0, 0, 0, 0⟩ [(1, ⟨2, 2, 8, 8⟩), (2, ⟨20, 20, 30, 30⟩)]
        (marqueeStartSnapshot true false ⟨[7], Option.none⟩)
        ⟨[7], Option.none⟩).state.selectedIds ∧
    (1 : ℕ) ∈ (marqueeUpdateSelection SelectionMode.multiple
        ⟨0, 0, 10, 10⟩ ⟨0, 0, 0, 0⟩ [(1, ⟨2, 2, 8, 8⟩), (2, ⟨20, 20, 30, 30⟩)]
        (marqueeStartSnapshot true false ⟨[7], Option.none⟩)
        ⟨[7], Option.none⟩).state.selectedIds ∧
    (2 : ℕ) ∉ (marqueeUpdateSelection SelectionMode.multiple
        ⟨0, 0, 10, 10⟩ ⟨0, 0, 0, 0⟩ [(1, ⟨2, 2, 8, 8⟩), (2, ⟨20, 20, 30, 30⟩)]
        (marqueeStartSnapshot true false ⟨[7], Option.none⟩)
        ⟨[7], Option.none⟩).state.selectedIds := by
  have h := C9_marquee_hit_union ⟨0, 0, 10, 10⟩ ⟨0, 0, 0, 0⟩
    [((1 : ℕ), (⟨2, 2, 8, 8⟩ : Rect)), (2, ⟨20, 20, 30, 30⟩)] true false
    ⟨[7], Option.none⟩ ⟨[7], Option.none⟩
  have hint1 : rectsIntersect
      (getMarqueeDOMRect ⟨0, 0, 10, 10⟩ ⟨0, 0, 0, 0⟩) ⟨2, 2, 8, 8⟩ = true := by
    norm_num [rectsIntersect, getMarqueeDOMRect, min_def, max_def]
  have hint2 : rectsIntersect
      (getMarqueeDOMRect ⟨0, 0, 10, 10⟩ ⟨0, 0, 0, 0⟩) ⟨20, 20, 30, 30⟩ = false := by
    norm_num [rectsIntersect, getMarqueeDOMRect, min_def, max_def]
  refine ⟨(h.2.1 7).mpr (Or.inl (by simp [marqueeStartSnapshot])), ?_, ?_⟩
  · exact (h.2.1 1).mpr (Or.inr ⟨⟨2, 2, 8, 8⟩, by simp, hint1⟩)
  · intro hmem
    rcases (h.2.1 2).mp hmem with hprev | ⟨rect, hmem2, hint⟩
    · simp [marqueeStartSnapshot] at hprev
    · simp only [List.mem_cons, List.not_mem_nil, or_false, Prod.mk.injEq] at hmem2
      rcases hmem2 with ⟨h21, _⟩ | ⟨_, hrect⟩
      · exact absurd h21 (by decide)
      · subst hrect
        rw [hint2] at hint
        cases hint

end ExplorerGrid
